import Mathlib

/-!
Verification of the FileBeam peer file-transfer core.

The repository has two source components:
* a browser hook (`useWebRTC`) implementing the transfer engine: file
  selection, chunked sending over a data channel, receiving, progress/ETA
  bookkeeping, reassembly and reset;
* a signaling server holding an in-memory room registry (`rooms : Map`)
  with handlers for `join-room`, `offer`, `answer`, `ice-candidate` and
  `disconnect`.

This file gives a shallow embedding of both, faithful to the source:
* `ArrayBuffer` byte payloads are `List Byte` (`Byte := Nat`; the claims
  never inspect individual byte values);
* JS numbers used for sizes/offsets are `Nat`, timestamps and derived
  quantities (elapsed seconds, bytes/second) are `ℚ`;
* a JS division that can produce a non-finite number (NaN or ±Infinity,
  exactly when the divisor is zero) is modelled as an `Option ℚ` that is
  `none` in that case, where the resulting number is stored in state;
* the `rooms` JS `Map` is an association list in insertion order, with
  `Map.get`/`Map.set`/`Map.delete`/iteration modelled by `List.lookup`,
  `mapSet`, filtering and list recursion.
-/

namespace FileBeam

/-- Byte of an `ArrayBuffer`; the claims only ever compare whole byte
sequences, so a `Nat` stands for a byte. -/
abbrev Byte := Nat

/-- Source line 11: `const CHUNK_SIZE = 1024 * 1024`. -/
def CHUNK_SIZE : Nat := 1024 * 1024

/-- Messages travelling over the direct data channel.  The source
distinguishes string frames (JSON `file-info` / `file-complete`) from
`ArrayBuffer` frames; the claims never involve malformed JSON, so the
parsed shape is embedded directly. -/
inductive DCMessage where
  | fileInfo (name : String) (size : Nat) (fileType : String)
  | fileComplete
  | chunk (data : List Byte)
deriving DecidableEq

/-- Sender chunking loop of `sendFile` (lines 348-389): `readSlice o`
reads `file.slice(o, o + CHUNK_SIZE)`; `reader.onload` sends the slice,
advances `offset` by the slice's byte length and either reads the next
slice (`offset < file.size`) or finishes.  The result is the list of
binary frames in send order.  Note the first slice is always sent, even
for an empty file. -/
def sendLoop (file : List Byte) (offset : Nat) : List (List Byte) :=
  let slice := (file.drop offset).take CHUNK_SIZE
  if h : offset + slice.length < file.length then
    slice :: sendLoop file (offset + slice.length)
  else
    [slice]
termination_by file.length - offset
decreasing_by
  have hcs : 0 < CHUNK_SIZE := by norm_num [CHUNK_SIZE]
  simp only [List.length_take, List.length_drop] at h ⊢
  omega

/-- Binary frames produced by `sendFile` for a file, in send order. -/
def sendChunks (file : List Byte) : List (List Byte) :=
  sendLoop file 0

/-- Complete frame sequence emitted by `sendFile` (lines 334-388): the
`file-info` metadata frame, the binary chunks in order, then the
`file-complete` frame. -/
def senderFrames (file : List Byte) (name fileType : String) : List DCMessage :=
  DCMessage.fileInfo name file.length fileType ::
    (sendChunks file).map DCMessage.chunk ++ [DCMessage.fileComplete]

/-- Progress computation `bytesMoved / totalSize * 100` (receiver lines
306-308, sender lines 362-364).  JS division returns a non-finite number
(NaN for `0/0`, Infinity otherwise) exactly when `totalSize = 0`; the
stored number is modelled as `none` in that case. -/
def progressPercent (bytesMoved totalSize : Nat) : Option ℚ :=
  if totalSize = 0 then none
  else some ((bytesMoved : ℚ) / (totalSize : ℚ) * 100)

/-- ETA computation shared verbatim by the receiver (lines 311-318) and
the sender (lines 366-374): `bytesPerSecond = bytesMoved / elapsedTime`,
`remainingTime = bytesPerSecond > 0 ? ceil(remainingBytes / bytesPerSecond)
: 0`.  For `elapsedSeconds = 0` JS yields `bytesPerSecond = Infinity`
(when bytes moved) and then `ceil(remaining / Infinity) = 0`, while the
rational model takes the else branch; both store `0`. -/
def etaUpdate (bytesMoved totalSize : Nat) (elapsedSeconds : ℚ) : ℤ :=
  let bytesPerSecond : ℚ := (bytesMoved : ℚ) / elapsedSeconds
  if 0 < bytesPerSecond then
    Int.ceil (((totalSize : ℚ) - (bytesMoved : ℚ)) / bytesPerSecond)
  else 0

/-- ETA as rendered by the page component (`use-webrtc.tsx` lines
185-189 and 237-241): `estimatedTime > 0 ? numeric : "Calculating..."`;
`none` models the "Calculating..." text (no numeric value). -/
def etaDisplay (estimatedTime : ℤ) : Option ℤ :=
  if 0 < estimatedTime then some estimatedTime else none

/-- Local file handed to the hook by the file input.  A JS `File` exposes
`name`, `type` and `size`; its `size` is the byte length of its content,
which `file.slice` ranges over. -/
structure JsFile where
  name : String
  fileType : String
  bytes : List Byte
deriving DecidableEq

/-- Byte size of the file, as `file.size`. -/
def JsFile.size (f : JsFile) : Nat := f.bytes.length

/-- Socket messages the hook can emit to the signaling server.  The hook
emits `join-room` only inside `initWebRTC`; modelling it lets theorems
state that an operation performs no registry interaction. -/
inductive ClientEmit where
  | joinRoom (roomId : String) (isSender : Bool)
deriving DecidableEq

/-- Combined state of the `useWebRTC` hook: the `useState` cells
(`selectedFile`, `shareCode`, `progress`, `estimatedTime`, `status`,
`isConnected`) and the refs (`fileChunksRef`, `receivedSizeRef`,
`totalSizeRef`, `fileNameRef`, `fileTypeRef`, `startTimeRef`).
`savedFile` records the payload surfaced for download by
`saveReceivedFile` (an external effect in the source). -/
structure HookState where
  selectedFile : Option JsFile
  shareCode : String
  progress : Option ℚ
  estimatedTime : ℤ
  status : String
  isConnected : Bool
  fileChunks : List (List Byte)
  receivedSize : Nat
  totalSize : Nat
  fileName : String
  fileType : String
  startTime : ℚ
  savedFile : Option (List Byte)
deriving DecidableEq

/-- Initial hook state (lines 14-32): every `useState` starts at its
initializer, every ref at its initial value. -/
def initHookState : HookState where
  selectedFile := none
  shareCode := ""
  progress := some 0
  estimatedTime := 0
  status := ""
  isConnected := false
  fileChunks := []
  receivedSize := 0
  totalSize := 0
  fileName := ""
  fileType := ""
  startTime := 0
  savedFile := none

/-- Lines 74-100, `handleFileSelect`: a file larger than 1 GiB is
rejected (only a toast is shown) before anything else happens; otherwise
the file is recorded and the listed state and refs are reset.  No socket
message is emitted on either path. -/
def handleFileSelect (f : JsFile) (s : HookState) : HookState × List ClientEmit :=
  if 1024 * 1024 * 1024 < f.size then
    (s, [])
  else
    ({ s with
        selectedFile := some f
        shareCode := ""
        progress := some 0
        estimatedTime := 0
        status := ""
        isConnected := false
        fileChunks := []
        receivedSize := 0
        totalSize := 0 }, [])

/-- Lines 413-445, `saveReceivedFile`: concatenate the accumulated
chunks into a single blob (in receipt order), surface it for download,
set the success status.  The source does not clear `fileChunksRef` or any
other ref here. -/
def saveReceivedFile (s : HookState) : HookState :=
  { s with
      savedFile := some s.fileChunks.flatten
      status := "File received successfully!" }

/-- Lines 276-320, `handleDataChannelMessage`, at timestamp `now`
(`Date.now()` in milliseconds):
* `file-info` resets the accumulator and byte count, records size, name
  and type, sets the status and starts the clock;
* `file-complete` runs `saveReceivedFile`;
* a binary frame is appended to the accumulator, `receivedSize` grows by
  its byte length, progress is recomputed, and — when the clock has been
  started — the ETA is recomputed from the elapsed seconds. -/
def handleDataChannelMessage (now : ℚ) (msg : DCMessage) (s : HookState) : HookState :=
  match msg with
  | .fileInfo name size fileType =>
      { s with
          fileChunks := []
          receivedSize := 0
          totalSize := size
          fileName := name
          fileType := fileType
          status := "Receiving: " ++ name
          startTime := now }
  | .fileComplete => saveReceivedFile s
  | .chunk data =>
      let receivedSize := s.receivedSize + data.length
      let estimatedTime :=
        if 0 < s.startTime then
          etaUpdate receivedSize s.totalSize ((now - s.startTime) / 1000)
        else s.estimatedTime
      { s with
          fileChunks := s.fileChunks ++ [data]
          receivedSize := receivedSize
          progress := progressPercent receivedSize s.totalSize
          estimatedTime := estimatedTime }

/-- Lines 448-475, `resetConnection`: every state cell and ref is put
back to its initial value.  (`savedFile` stands for a download that
already happened externally, so it is untouched.) -/
def resetConnection (s : HookState) : HookState :=
  { s with
      selectedFile := none
      shareCode := ""
      progress := some 0
      estimatedTime := 0
      status := ""
      isConnected := false
      fileChunks := []
      receivedSize := 0
      totalSize := 0
      fileName := ""
      fileType := ""
      startTime := 0 }

/-- Runs the receiver over a list of data-channel messages; `f i` is the
`Date.now()` timestamp at which the `i`-th message (counting from `i0`)
is handled. -/
def runReceiverFrom (f : Nat → ℚ) (i0 : Nat) : List DCMessage → HookState → HookState
  | [], s => s
  | m :: ms, s => runReceiverFrom f (i0 + 1) ms (handleDataChannelMessage (f i0) m s)

/-- Receiver state after handling all messages, starting the timestamp
index at 0. -/
def runReceiver (f : Nat → ℚ) (msgs : List DCMessage) (s : HookState) : HookState :=
  runReceiverFrom f 0 msgs s

/-- Intermediate receiver states after each message. -/
def runStates (f : Nat → ℚ) (i0 : Nat) : List DCMessage → HookState → List HookState
  | [], _ => []
  | m :: ms, s =>
      let s2 := handleDataChannelMessage (f i0) m s
      s2 :: runStates f (i0 + 1) ms s2

/-- One `reader.onload` step of `sendFile` (lines 356-389): the slice
just read is sent, `offset` advances by its byte length, progress and —
when the clock runs — the ETA are updated; when the file is exhausted the
`file-complete` frame is sent and the success status set.  Returns the
new offset, the new hook state and the frames sent by this step. -/
def senderOnLoad (file chunk : List Byte) (offset : Nat) (now : ℚ) (s : HookState) :
    Nat × HookState × List DCMessage :=
  let offset2 := offset + chunk.length
  let estimatedTime :=
    if 0 < s.startTime then
      etaUpdate offset2 file.length ((now - s.startTime) / 1000)
    else s.estimatedTime
  let s2 := { s with
      progress := progressPercent offset2 file.length
      estimatedTime := estimatedTime }
  if offset2 < file.length then
    (offset2, s2, [DCMessage.chunk chunk])
  else
    (offset2, { s2 with status := "File sent successfully!" },
      [DCMessage.chunk chunk, DCMessage.fileComplete])

/-- Partial sums of `ls` starting from `a`: the successive values of the
sender's `offset` (respectively the receiver's `receivedSize`) after each
chunk whose byte lengths are `ls`. -/
def sumsFrom (a : Nat) : List Nat → List Nat
  | [] => []
  | l :: ls => (a + l) :: sumsFrom (a + l) ls

/-- Progress values reported by the sender after each sent chunk (lines
359-364: `offset` accumulates each sent slice's byte length and progress
is `offset / file.size * 100` after every send). -/
def progressAfter (file : List Byte) : List (Option ℚ) :=
  (sumsFrom 0 ((sendChunks file).map List.length)).map
    (fun o => progressPercent o file.length)

/-- Comparison of two stored progress numbers: both are real numbers and
they are ordered; a non-finite value (`none`) compares with nothing. -/
def optLe (a b : Option ℚ) : Prop :=
  match a, b with
  | some x, some y => x ≤ y
  | _, _ => False

/-- Receiver invariant: the byte count equals the total length of the
accumulated chunks. -/
def recvInvariant (s : HookState) : Prop :=
  s.receivedSize = (s.fileChunks.map List.length).sum

/-! ## Signaling server (second source file) -/

/-- Room record stored in the server's `rooms` map: `{ sender: null,
receiver: null }` with socket ids filled in on join. -/
structure Room where
  sender : Option String
  receiver : Option String
deriving DecidableEq

/-- Server registry: the `rooms` JS `Map` keyed by room id, as an
association list in insertion order (JS `Map` iteration order). -/
abbrev Rooms := List (String × Room)

/-- Messages the server emits to a socket id. -/
inductive ServerEmit where
  | receiverJoined
  | offer (payload : String)
  | answer (payload : String)
  | iceCandidate (payload : String)
  | peerDisconnected
deriving DecidableEq

/-- JS `Map.set`: overwrite the entry if the key is present, otherwise
append it (insertion order). -/
def mapSet (rooms : Rooms) (k : String) (v : Room) : Rooms :=
  if (rooms.lookup k).isSome then
    rooms.map (fun e => if e.1 = k then (k, v) else e)
  else
    rooms ++ [(k, v)]

/-- Lines 545-571, the `join-room` handler for socket `socketId`: create
the room if missing, fill the requested slot (last-writer-wins), and if a
receiver joins while a sender is present notify that sender with
`receiver-joined`.  Returns the new registry and the emitted messages as
`(target socket id, message)` pairs. -/
def joinRoom (rooms : Rooms) (socketId roomId : String) (isSender : Bool) :
    Rooms × List (String × ServerEmit) :=
  let rooms1 := if (rooms.lookup roomId).isSome then rooms
                else mapSet rooms roomId ⟨none, none⟩
  let room := (rooms1.lookup roomId).getD ⟨none, none⟩
  if isSender then
    (mapSet rooms1 roomId { room with sender := some socketId }, [])
  else
    let emits := match room.sender with
      | some sid => [(sid, ServerEmit.receiverJoined)]
      | none => []
    (mapSet rooms1 roomId { room with receiver := some socketId }, emits)

/-- Lines 574-582, the `offer` handler: forward to the room's receiver if
the room and its receiver exist, else drop. -/
def onOffer (rooms : Rooms) (socketId roomId payload : String) :
    Rooms × List (String × ServerEmit) :=
  match rooms.lookup roomId with
  | some room =>
      match room.receiver with
      | some rid => (rooms, [(rid, ServerEmit.offer payload)])
      | none => (rooms, [])
  | none => (rooms, [])

/-- Lines 584-592, the `answer` handler: forward to the room's sender if
the room and its sender exist, else drop. -/
def onAnswer (rooms : Rooms) (socketId roomId payload : String) :
    Rooms × List (String × ServerEmit) :=
  match rooms.lookup roomId with
  | some room =>
      match room.sender with
      | some sid => (rooms, [(sid, ServerEmit.answer payload)])
      | none => (rooms, [])
  | none => (rooms, [])

/-- Lines 594-605, the `ice-candidate` handler: the target is the room's
receiver when the caller is the room's sender, the room's sender
otherwise; forward if that target exists, else drop. -/
def onIceCandidate (rooms : Rooms) (socketId roomId payload : String) :
    Rooms × List (String × ServerEmit) :=
  match rooms.lookup roomId with
  | some room =>
      let targetId := if room.sender = some socketId then room.receiver else room.sender
      match targetId with
      | some t => (rooms, [(t, ServerEmit.iceCandidate payload)])
      | none => (rooms, [])
  | none => (rooms, [])

/-- Opposite-occupant lookup: exactly the target computation of the
`ice-candidate` handler, the registry's way of routing a message to "the
other side" of `socketId` in room `roomId`. -/
def peerOf (rooms : Rooms) (roomId socketId : String) : Option String :=
  match rooms.lookup roomId with
  | some room => if room.sender = some socketId then room.receiver else room.sender
  | none => none

/-- Per-room body of the `disconnect` loop (lines 612-634) for the
disconnecting socket: if the socket occupies a slot, notify the other
occupant (when present), empty the socket's slot(s), and delete the room
when both slots end up empty.  Returns the surviving entry (if any) and
the emitted messages. -/
def disconnectRoom (socketId : String) (e : String × Room) :
    Option (String × Room) × List (String × ServerEmit) :=
  let room := e.2
  if room.sender = some socketId ∨ room.receiver = some socketId then
    let targetId := if room.sender = some socketId then room.receiver else room.sender
    let emits := match targetId with
      | some t => [(t, ServerEmit.peerDisconnected)]
      | none => []
    let sender2 := if room.sender = some socketId then none else room.sender
    let receiver2 := if room.receiver = some socketId then none else room.receiver
    if sender2 = none ∧ receiver2 = none then
      (none, emits)
    else
      (some (e.1, ⟨sender2, receiver2⟩), emits)
  else
    (some e, [])

/-- Lines 608-635, the `disconnect` handler: iterate over all rooms in
map order applying `disconnectRoom`. -/
def onDisconnect (socketId : String) : Rooms → Rooms × List (String × ServerEmit)
  | [] => ([], [])
  | e :: rs =>
      let step := disconnectRoom socketId e
      let rest := onDisconnect socketId rs
      (match step.1 with
       | some e2 => e2 :: rest.1
       | none => rest.1,
       step.2 ++ rest.2)

/-- Registry after `leave(a)`, written the spec's way: empty every slot
`a` occupies; a room touched by the removal whose slots are now both
empty is deleted; other rooms are untouched. -/
def specRemove (a : String) (rooms : Rooms) : Rooms :=
  rooms.filterMap (fun e =>
    let sender2 := if e.2.sender = some a then none else e.2.sender
    let receiver2 := if e.2.receiver = some a then none else e.2.receiver
    if sender2 = none ∧ receiver2 = none ∧
        (e.2.sender = some a ∨ e.2.receiver = some a) then
      none
    else
      some (e.1, ⟨sender2, receiver2⟩))

/-- Notifications of `leave(a)`, written the spec's way: one
`peer-disconnected` to the other occupant of each room `a` occupies, for
those rooms where that other occupant exists. -/
def pdEmits (a : String) (rooms : Rooms) : List (String × ServerEmit) :=
  rooms.filterMap (fun e =>
    if e.2.sender = some a ∨ e.2.receiver = some a then
      (if e.2.sender = some a then e.2.receiver else e.2.sender).map
        (fun t => (t, ServerEmit.peerDisconnected))
    else none)

/-- Registry after `join(code, sender, a)` followed by `join(code,
receiver, b)` starting from `rooms`. -/
def afterJoins (rooms : Rooms) (code a b : String) : Rooms :=
  (joinRoom (joinRoom rooms a code true).1 b code false).1

/-! ## Chunking lemmas -/

lemma drop_min_length (l : List Byte) (n : Nat) : l.drop (min n l.length) = l.drop n := by
  rcases Nat.le_total n l.length with h | h
  · rw [Nat.min_eq_left h]
  · rw [Nat.min_eq_right h, List.drop_eq_nil_of_le h, List.drop_eq_nil_of_le le_rfl]

lemma sendLoop_ne_nil (file : List Byte) (offset : Nat) : sendLoop file offset ≠ [] := by
  rw [sendLoop]
  split <;> simp

lemma sendLoop_flatten (file : List Byte) (offset : Nat) :
    (sendLoop file offset).flatten = file.drop offset := by
  have hcs : 0 < CHUNK_SIZE := by norm_num [CHUNK_SIZE]
  rw [sendLoop]
  split
  next h =>
    rw [List.flatten_cons, sendLoop_flatten file _, ← List.drop_drop, List.length_take,
      drop_min_length, List.take_append_drop]
  next h =>
    simp only [List.flatten_cons, List.flatten_nil, List.append_nil]
    apply List.take_of_length_le
    simp only [List.length_take, List.length_drop] at h
    simp only [List.length_drop]
    omega
termination_by file.length - offset
decreasing_by
  have hcs2 : 0 < CHUNK_SIZE := by norm_num [CHUNK_SIZE]
  simp only [List.length_take, List.length_drop] at *
  omega

lemma sendLoop_length (file : List Byte) (offset : Nat) :
    (sendLoop file offset).length
      = max 1 ((file.length - offset + CHUNK_SIZE - 1) / CHUNK_SIZE) := by
  have hcs : 0 < CHUNK_SIZE := by norm_num [CHUNK_SIZE]
  rw [sendLoop]
  split
  next h =>
    rw [List.length_cons, sendLoop_length file _]
    simp only [List.length_take, List.length_drop] at h ⊢
    have hr : CHUNK_SIZE < file.length - offset := by omega
    have hmin : min CHUNK_SIZE (file.length - offset) = CHUNK_SIZE := by omega
    rw [hmin]
    have e1 : file.length - (offset + CHUNK_SIZE) + CHUNK_SIZE - 1
        = (file.length - offset - 1 - CHUNK_SIZE) + CHUNK_SIZE := by omega
    have e2 : file.length - offset + CHUNK_SIZE - 1
        = (file.length - offset - 1 - CHUNK_SIZE) + CHUNK_SIZE + CHUNK_SIZE := by omega
    rw [e1, e2, Nat.add_div_right _ hcs, Nat.add_div_right _ hcs, Nat.add_div_right _ hcs,
      Nat.max_eq_right (Nat.le_add_left 1 _), Nat.max_eq_right (Nat.le_add_left 1 _)]
  next h =>
    simp only [List.length_cons, List.length_nil, List.length_take, List.length_drop] at h ⊢
    rcases Nat.eq_zero_or_pos (file.length - offset) with h0 | h0
    · rw [h0, Nat.zero_add, Nat.div_eq_of_lt (by omega)]
      omega
    · have e : file.length - offset + CHUNK_SIZE - 1
          = (file.length - offset - 1) + CHUNK_SIZE := by omega
      rw [e, Nat.add_div_right _ hcs, Nat.div_eq_of_lt (by omega)]
      omega
termination_by file.length - offset
decreasing_by
  have hcs2 : 0 < CHUNK_SIZE := by norm_num [CHUNK_SIZE]
  simp only [List.length_take, List.length_drop] at *
  omega

lemma sendLoop_dropLast_length (file : List Byte) (offset : Nat) :
    ∀ c ∈ (sendLoop file offset).dropLast, c.length = CHUNK_SIZE := by
  have hcs : 0 < CHUNK_SIZE := by norm_num [CHUNK_SIZE]
  intro c hc
  rw [sendLoop] at hc
  split at hc
  · rw [List.dropLast_cons_of_ne_nil (sendLoop_ne_nil _ _)] at hc
    rcases List.mem_cons.mp hc with rfl | hc
    · simp only [List.length_take, List.length_drop] at *
      omega
    · exact sendLoop_dropLast_length file _ c hc
  · simp at hc
termination_by file.length - offset
decreasing_by
  have hcs2 : 0 < CHUNK_SIZE := by norm_num [CHUNK_SIZE]
  simp only [List.length_take, List.length_drop] at *
  omega

lemma sendLoop_getLast_length (file : List Byte) (offset : Nat) :
    ∀ c, (sendLoop file offset).getLast? = some c → c.length ≤ CHUNK_SIZE := by
  have hcs : 0 < CHUNK_SIZE := by norm_num [CHUNK_SIZE]
  intro c hc
  rw [sendLoop] at hc
  split at hc
  · rcases hrest : sendLoop file (offset + ((file.drop offset).take CHUNK_SIZE).length)
      with _ | ⟨b, bs⟩
    · exact absurd hrest (sendLoop_ne_nil _ _)
    · rw [hrest, List.getLast?_cons_cons] at hc
      exact sendLoop_getLast_length file _ c (by rw [hrest]; exact hc)
  · simp only [List.getLast?_singleton, Option.some.injEq] at hc
    subst hc
    simp only [List.length_take, List.length_drop]
    omega
termination_by file.length - offset
decreasing_by
  have hcs2 : 0 < CHUNK_SIZE := by norm_num [CHUNK_SIZE]
  simp only [List.length_take, List.length_drop] at *
  omega

lemma sendChunks_flatten (file : List Byte) : (sendChunks file).flatten = file := by
  rw [sendChunks, sendLoop_flatten, List.drop_zero]

lemma sendChunks_length (file : List Byte) :
    (sendChunks file).length = max 1 ((file.length + CHUNK_SIZE - 1) / CHUNK_SIZE) := by
  rw [sendChunks, sendLoop_length, Nat.sub_zero]

lemma sendChunks_sum (file : List Byte) :
    ((sendChunks file).map List.length).sum = file.length := by
  rw [← List.length_flatten, sendChunks_flatten]

lemma sendChunks_of_length_le (file : List Byte) (h : file.length ≤ CHUNK_SIZE) :
    sendChunks file = [file] := by
  rw [sendChunks, sendLoop]
  simp only [List.drop_zero, List.take_of_length_le h]
  rw [dif_neg (by omega)]

/-! ## Receiver run lemmas -/

lemma handle_chunk (now : ℚ) (d : List Byte) (s : HookState) :
    handleDataChannelMessage now (.chunk d) s
      = { s with
          fileChunks := s.fileChunks ++ [d]
          receivedSize := s.receivedSize + d.length
          progress := progressPercent (s.receivedSize + d.length) s.totalSize
          estimatedTime :=
            if 0 < s.startTime then
              etaUpdate (s.receivedSize + d.length) s.totalSize ((now - s.startTime) / 1000)
            else s.estimatedTime } := rfl

lemma runReceiverFrom_append (f : Nat → ℚ) (i : Nat) (ms1 ms2 : List DCMessage)
    (s : HookState) :
    runReceiverFrom f i (ms1 ++ ms2) s
      = runReceiverFrom f (i + ms1.length) ms2 (runReceiverFrom f i ms1 s) := by
  induction ms1 generalizing i s with
  | nil => simp [runReceiverFrom]
  | cons m ms ih =>
      simp only [List.cons_append, runReceiverFrom, List.length_cons, List.append_eq]
      rw [ih]
      have e : i + 1 + ms.length = i + (ms.length + 1) := by omega
      rw [e]

lemma run_chunks_fields (f : Nat → ℚ) (i : Nat) (cs : List (List Byte)) (s : HookState) :
    (runReceiverFrom f i (cs.map DCMessage.chunk) s).fileChunks = s.fileChunks ++ cs
    ∧ (runReceiverFrom f i (cs.map DCMessage.chunk) s).receivedSize
        = s.receivedSize + (cs.map List.length).sum
    ∧ (runReceiverFrom f i (cs.map DCMessage.chunk) s).totalSize = s.totalSize
    ∧ (runReceiverFrom f i (cs.map DCMessage.chunk) s).savedFile = s.savedFile
    ∧ (runReceiverFrom f i (cs.map DCMessage.chunk) s).progress
        = if cs = [] then s.progress
          else progressPercent (s.receivedSize + (cs.map List.length).sum) s.totalSize := by
  induction cs generalizing i s with
  | nil => simp [runReceiverFrom]
  | cons c cs ih =>
      simp only [List.map_cons, runReceiverFrom]
      obtain ⟨h1, h2, h3, h4, h5⟩ := ih (i + 1) (handleDataChannelMessage (f i) (.chunk c) s)
      refine ⟨?_, ?_, ?_, ?_, ?_⟩
      · rw [h1, handle_chunk]
        simp
      · rw [h2, handle_chunk]
        simp only [List.map_cons, List.sum_cons]
        omega
      · rw [h3, handle_chunk]
      · rw [h4, handle_chunk]
      · rw [h5, handle_chunk]
        rcases eq_or_ne cs [] with rfl | hne
        · simp
        · simp only [if_neg hne, List.cons_ne_nil, List.map_cons, List.sum_cons, if_neg]
          have e : s.receivedSize + c.length + (cs.map List.length).sum
              = s.receivedSize + (c.length + (cs.map List.length).sum) := by omega
          rw [e]
          simp

lemma runStates_chunks_progress (f : Nat → ℚ) (i : Nat) (cs : List (List Byte))
    (s : HookState) :
    (runStates f i (cs.map DCMessage.chunk) s).map HookState.progress
      = (sumsFrom s.receivedSize (cs.map List.length)).map
          (fun m => progressPercent m s.totalSize) := by
  induction cs generalizing i s with
  | nil => simp [runStates, sumsFrom]
  | cons c cs ih =>
      simp only [List.map_cons, runStates, sumsFrom]
      congr 1
      rw [ih, handle_chunk]

/-! ## Partial-sum lemmas -/

lemma chain_cons_sumsFrom (x a : Nat) (ls : List Nat) (hx : x ≤ a) :
    List.Chain' (· ≤ ·) (x :: sumsFrom a ls) := by
  induction ls generalizing x a with
  | nil => simp [sumsFrom]
  | cons l ls ih =>
      rw [sumsFrom, List.chain'_cons]
      exact ⟨by omega, ih _ _ le_rfl⟩

lemma sumsFrom_chain (a : Nat) (ls : List Nat) :
    List.Chain' (· ≤ ·) (sumsFrom a ls) := by
  cases ls with
  | nil => simp [sumsFrom]
  | cons l ls =>
      rw [sumsFrom]
      exact chain_cons_sumsFrom _ _ _ le_rfl

lemma sumsFrom_getLast (a l : Nat) (ls : List Nat) :
    (sumsFrom a (l :: ls)).getLast? = some (a + (l :: ls).sum) := by
  induction ls generalizing a l with
  | nil => simp [sumsFrom]
  | cons l2 ls2 ih =>
      have h2 := ih (a + l) l2
      simp only [sumsFrom] at h2 ⊢
      rw [List.getLast?_cons_cons, h2]
      congr 1
      simp only [List.sum_cons]
      omega

/-! ## Registry map lemmas -/

lemma lookup_map_self (rooms : Rooms) (k : String) (v : Room)
    (hsome : (rooms.lookup k).isSome) :
    (rooms.map (fun e => if e.1 = k then (k, v) else e)).lookup k = some v := by
  induction rooms with
  | nil => simp at hsome
  | cons e rs ih =>
      obtain ⟨ek, ev⟩ := e
      by_cases hek : ek = k
      · subst hek
        simp
      · have hke : (k == ek) = false := beq_eq_false_iff_ne.mpr (Ne.symm hek)
        simp only [List.map_cons, if_neg hek, List.lookup_cons, hke] at hsome ⊢
        exact ih hsome

lemma lookup_map_ne (rooms : Rooms) (k k2 : String) (v : Room) (h : k2 ≠ k) :
    (rooms.map (fun e => if e.1 = k then (k, v) else e)).lookup k2 = rooms.lookup k2 := by
  induction rooms with
  | nil => simp
  | cons e rs ih =>
      obtain ⟨ek, ev⟩ := e
      by_cases hek : ek = k
      · subst hek
        have hke : (k2 == ek) = false := beq_eq_false_iff_ne.mpr h
        simp only [List.map_cons, eq_self_iff_true, if_true, List.lookup_cons, hke]
        exact ih
      · simp only [List.map_cons, if_neg hek, List.lookup_cons]
        rcases hk2 : (k2 == ek) with _ | _ <;> simp [hk2, ih]

lemma lookup_mapSet_self (rooms : Rooms) (k : String) (v : Room) :
    (mapSet rooms k v).lookup k = some v := by
  rw [mapSet]
  split
  next hsome => exact lookup_map_self rooms k v hsome
  next hsome =>
    have hnone : rooms.lookup k = none := by
      rcases h : rooms.lookup k with _ | w
      · rfl
      · exact absurd (by simp [h]) hsome
    simp [List.lookup_append, hnone]

lemma lookup_mapSet_ne (rooms : Rooms) (k k2 : String) (v : Room) (h : k2 ≠ k) :
    (mapSet rooms k v).lookup k2 = rooms.lookup k2 := by
  rw [mapSet]
  split
  next hsome => exact lookup_map_ne rooms k k2 v h
  next hsome =>
    have h2 : ([(k, v)] : Rooms).lookup k2 = none := by
      simp [List.lookup_cons, beq_eq_false_iff_ne.mpr h]
    rw [List.lookup_append, h2, Option.or_none]

lemma joinRoom_fresh_sender (rooms : Rooms) (a code : String)
    (hnone : rooms.lookup code = none) :
    joinRoom rooms a code true
      = (mapSet (mapSet rooms code ⟨none, none⟩) code ⟨some a, none⟩, []) := by
  rw [joinRoom, hnone]
  simp [lookup_mapSet_self]

lemma joinRoom_receiver (rooms : Rooms) (b code : String) (room : Room)
    (hsome : rooms.lookup code = some room) :
    joinRoom rooms b code false
      = (mapSet rooms code { room with receiver := some b },
         match room.sender with
         | some sid => [(sid, ServerEmit.receiverJoined)]
         | none => []) := by
  rw [joinRoom, hsome]
  simp [hsome]

lemma afterJoins_lookup (rooms : Rooms) (code a b : String)
    (hnone : rooms.lookup code = none) :
    (afterJoins rooms code a b).lookup code = some ⟨some a, some b⟩ := by
  rw [afterJoins, joinRoom_fresh_sender rooms a code hnone,
    joinRoom_receiver _ b code ⟨some a, none⟩ (lookup_mapSet_self _ _ _)]
  exact lookup_mapSet_self _ _ _

/-- C2: on a registry with no room for `code`, `join(code, sender, a)`
followed by `join(code, receiver, b)` (for distinct connection ids) makes
the registry resolve the opposite occupant of `a` to `b` and of `b` to
`a`, so offers from `a` route to `b`, answers from `b` route to `a`, and
ICE candidates from either side route to the other. -/
theorem join_pairs_peers (rooms : Rooms) (code a b p : String)
    (hnone : rooms.lookup code = none) (hab : a ≠ b) :
    peerOf (afterJoins rooms code a b) code a = some b
    ∧ peerOf (afterJoins rooms code a b) code b = some a
    ∧ onOffer (afterJoins rooms code a b) a code p
        = (afterJoins rooms code a b, [(b, ServerEmit.offer p)])
    ∧ onAnswer (afterJoins rooms code a b) b code p
        = (afterJoins rooms code a b, [(a, ServerEmit.answer p)])
    ∧ onIceCandidate (afterJoins rooms code a b) a code p
        = (afterJoins rooms code a b, [(b, ServerEmit.iceCandidate p)])
    ∧ onIceCandidate (afterJoins rooms code a b) b code p
        = (afterJoins rooms code a b, [(a, ServerEmit.iceCandidate p)]) := by
  have hl := afterJoins_lookup rooms code a b hnone
  refine ⟨?_, ?_, ?_, ?_, ?_, ?_⟩
  · rw [peerOf, hl]
    simp
  · rw [peerOf, hl]
    simp [hab]
  · simp [onOffer, hl]
  · simp [onAnswer, hl]
  · simp [onIceCandidate, hl]
  · simp [onIceCandidate, hl, hab]

/-- Witness for C2: a concrete fresh code, distinct connection ids. -/
theorem join_pairs_peers_w :
    (([] : Rooms).lookup "ab12cd34" = none ∧ "a" ≠ "b")
    ∧ (peerOf (afterJoins [] "ab12cd34" "a" "b") "ab12cd34" "a" = some "b"
       ∧ peerOf (afterJoins [] "ab12cd34" "a" "b") "ab12cd34" "b" = some "a"
       ∧ onOffer (afterJoins [] "ab12cd34" "a" "b") "a" "ab12cd34" "x"
           = (afterJoins [] "ab12cd34" "a" "b", [("b", ServerEmit.offer "x")])
       ∧ onAnswer (afterJoins [] "ab12cd34" "a" "b") "b" "ab12cd34" "x"
           = (afterJoins [] "ab12cd34" "a" "b", [("a", ServerEmit.answer "x")])
       ∧ onIceCandidate (afterJoins [] "ab12cd34" "a" "b") "a" "ab12cd34" "x"
           = (afterJoins [] "ab12cd34" "a" "b", [("b", ServerEmit.iceCandidate "x")])
       ∧ onIceCandidate (afterJoins [] "ab12cd34" "a" "b") "b" "ab12cd34" "x"
           = (afterJoins [] "ab12cd34" "a" "b", [("a", ServerEmit.iceCandidate "x")])) :=
  ⟨⟨rfl, by decide⟩, join_pairs_peers [] "ab12cd34" "a" "b" "x" rfl (by decide)⟩

/-- C6: an offer for a room with no receiver, an answer for a room with
no sender, and an ICE candidate for a room where the caller has no
opposite occupant are all dropped: the handler returns normally, the
registry is unchanged and nothing is emitted.  The server state is the
room registry alone, and a join emits at most `receiver-joined`, so a
dropped message is never delivered to a later joiner. -/
theorem unmatched_messages_dropped
    (rooms1 rooms2 rooms3 rooms4 : Rooms)
    (code1 code2 code3 code4 sid1 sid2 sid3 sid4 p1 p2 p3 t4 : String)
    (r1 r2 r3 : Room) (b4 : Bool) (m4 : ServerEmit)
    (h1 : rooms1.lookup code1 = some r1) (h1r : r1.receiver = none)
    (h2 : rooms2.lookup code2 = some r2) (h2s : r2.sender = none)
    (h3 : rooms3.lookup code3 = some r3) (h3o : peerOf rooms3 code3 sid3 = none)
    (h4 : (t4, m4) ∈ (joinRoom rooms4 sid4 code4 b4).2) :
    onOffer rooms1 sid1 code1 p1 = (rooms1, [])
    ∧ onAnswer rooms2 sid2 code2 p2 = (rooms2, [])
    ∧ onIceCandidate rooms3 sid3 code3 p3 = (rooms3, [])
    ∧ m4 = ServerEmit.receiverJoined := by
  refine ⟨?_, ?_, ?_, ?_⟩
  · simp [onOffer, h1, h1r]
  · simp [onAnswer, h2, h2s]
  · rw [peerOf, h3] at h3o
    simp only at h3o
    simp [onIceCandidate, h3, h3o]
  · rw [joinRoom] at h4
    rcases b4 with _ | _
    · simp only [Bool.false_eq_true, if_false] at h4
      split at h4
      · simp at h4
        exact h4.2
      · simp at h4
    · simp at h4

/-- Witness for C6: concrete rooms missing the opposite occupant, and a
join that does emit. -/
theorem unmatched_messages_dropped_w :
    (([("c1", (⟨some "s1", none⟩ : Room))] : Rooms).lookup "c1" = some ⟨some "s1", none⟩
     ∧ ([("c2", (⟨none, some "r2"⟩ : Room))] : Rooms).lookup "c2" = some ⟨none, some "r2"⟩
     ∧ peerOf [("c3", ⟨some "s3", none⟩)] "c3" "s3" = none
     ∧ ("s4", ServerEmit.receiverJoined)
         ∈ (joinRoom [("c4", ⟨some "s4", none⟩)] "r4" "c4" false).2)
    ∧ (onOffer [("c1", ⟨some "s1", none⟩)] "s1" "c1" "x"
         = ([("c1", ⟨some "s1", none⟩)], [])
       ∧ onAnswer [("c2", ⟨none, some "r2"⟩)] "r2" "c2" "x"
         = ([("c2", ⟨none, some "r2"⟩)], [])
       ∧ onIceCandidate [("c3", ⟨some "s3", none⟩)] "s3" "c3" "x"
         = ([("c3", ⟨some "s3", none⟩)], [])
       ∧ ServerEmit.receiverJoined = ServerEmit.receiverJoined) :=
  ⟨⟨by decide, by decide, by decide, by decide⟩,
    unmatched_messages_dropped
      [("c1", ⟨some "s1", none⟩)] [("c2", ⟨none, some "r2"⟩)]
      [("c3", ⟨some "s3", none⟩)] [("c4", ⟨some "s4", none⟩)]
      "c1" "c2" "c3" "c4" "s1" "r2" "s3" "r4" "x" "x" "x" "s4"
      ⟨some "s1", none⟩ ⟨none, some "r2"⟩ ⟨some "s3", none⟩ false
      ServerEmit.receiverJoined
      (by decide) (by decide) (by decide) (by decide) (by decide) (by decide)
      (by decide)⟩

lemma onDisconnect_eq (a : String) (rooms : Rooms) :
    onDisconnect a rooms = (specRemove a rooms, pdEmits a rooms) := by
  induction rooms with
  | nil => rfl
  | cons e rs ih =>
      obtain ⟨ek, er⟩ := e
      obtain ⟨es, err⟩ := er
      simp only [onDisconnect, ih, disconnectRoom, specRemove, pdEmits, List.filterMap_cons]
      by_cases hs : es = some a <;> by_cases hr : err = some a
      · subst hs
        subst hr
        simp
      · subst hs
        cases err with
        | none => simp
        | some t2 => simp [hr]
      · subst hr
        cases es with
        | none => simp [hs]
        | some s2 => simp [hs]
      · simp [hs, hr]

lemma pdEmits_mem (a t : String) (m : ServerEmit) (rooms : Rooms)
    (hA : ∀ e ∈ rooms, ¬(e.2.sender = some a ∧ e.2.receiver = some a))
    (hm : (t, m) ∈ pdEmits a rooms) :
    t ≠ a ∧ m = ServerEmit.peerDisconnected := by
  rw [pdEmits, List.mem_filterMap] at hm
  obtain ⟨e, he, heq⟩ := hm
  by_cases hone : e.2.sender = some a ∨ e.2.receiver = some a
  · rw [if_pos hone] at heq
    rcases ho : (if e.2.sender = some a then e.2.receiver else e.2.sender) with _ | t2
    · rw [ho] at heq
      simp at heq
    · rw [ho] at heq
      simp only [Option.map_some', Option.some.injEq, Prod.mk.injEq] at heq
      obtain ⟨rfl, rfl⟩ := heq
      refine ⟨?_, rfl⟩
      intro hta
      subst hta
      have hAe := hA e he
      by_cases hsn : e.2.sender = some t2
      · rw [if_pos hsn] at ho
        exact hAe ⟨hsn, ho⟩
      · rw [if_neg hsn] at ho
        exact hsn ho
  · rw [if_neg hone] at heq
    exact absurd heq (by simp)

/-- C7: disconnecting `a` (for a registry where `a` does not fill both
slots of one room) empties every slot `a` occupies, deletes every room
the removal leaves with both slots empty, and emits exactly one
`peer-disconnected` per room to the remaining other occupant and to no
one else. -/
theorem disconnect_cleanup (rooms : Rooms) (a t : String) (m : ServerEmit)
    (hA : ∀ e ∈ rooms, ¬(e.2.sender = some a ∧ e.2.receiver = some a))
    (hm : (t, m) ∈ (onDisconnect a rooms).2) :
    onDisconnect a rooms = (specRemove a rooms, pdEmits a rooms)
    ∧ t ≠ a ∧ m = ServerEmit.peerDisconnected := by
  have heq := onDisconnect_eq a rooms
  have hm2 : (t, m) ∈ pdEmits a rooms := by
    rw [heq] at hm
    exact hm
  obtain ⟨h1, h2⟩ := pdEmits_mem a t m rooms hA hm2
  exact ⟨heq, h1, h2⟩

/-- Witness for C7: one room shared by `A` and `B`, one room with `A`
alone (which disappears), producing exactly one notification to `B`. -/
theorem disconnect_cleanup_w :
    ((∀ e ∈ ([("c", (⟨some "A", some "B"⟩ : Room)), ("d", ⟨some "A", none⟩)] : Rooms),
        ¬(e.2.sender = some "A" ∧ e.2.receiver = some "A"))
     ∧ ("B", ServerEmit.peerDisconnected)
         ∈ (onDisconnect "A" [("c", ⟨some "A", some "B"⟩), ("d", ⟨some "A", none⟩)]).2)
    ∧ (onDisconnect "A" [("c", ⟨some "A", some "B"⟩), ("d", ⟨some "A", none⟩)]
        = (specRemove "A" [("c", ⟨some "A", some "B"⟩), ("d", ⟨some "A", none⟩)],
           pdEmits "A" [("c", ⟨some "A", some "B"⟩), ("d", ⟨some "A", none⟩)])
       ∧ "B" ≠ "A" ∧ ServerEmit.peerDisconnected = ServerEmit.peerDisconnected) :=
  ⟨⟨by decide, by decide⟩,
    disconnect_cleanup [("c", ⟨some "A", some "B"⟩), ("d", ⟨some "A", none⟩)]
      "A" "B" ServerEmit.peerDisconnected (by decide) (by decide)⟩

lemma handle_fileInfo (now : ℚ) (name : String) (size : Nat) (ftype : String)
    (s : HookState) :
    handleDataChannelMessage now (.fileInfo name size ftype) s
      = { s with
          fileChunks := []
          receivedSize := 0
          totalSize := size
          fileName := name
          fileType := ftype
          status := "Receiving: " ++ name
          startTime := now } := rfl

lemma handle_complete (now : ℚ) (s : HookState) :
    handleDataChannelMessage now DCMessage.fileComplete s = saveReceivedFile s := rfl

/-- C8: selecting a file larger than the 1 GiB maximum is rejected before
anything else: the hook state is returned unchanged (no selected file, no
share code, progress, ETA, status or connection change) and no socket
message — in particular no room join — is emitted. -/
theorem oversized_file_rejected (f : JsFile) (s : HookState)
    (h : 1024 * 1024 * 1024 < f.size) :
    handleFileSelect f s = (s, []) := by
  rw [handleFileSelect, if_pos h]

/-- Witness for C8: a file one byte over the limit against the initial
hook state. -/
theorem oversized_file_rejected_w :
    1024 * 1024 * 1024
        < (JsFile.mk "big" "bin" (List.replicate (1024 * 1024 * 1024 + 1) 0)).size
    ∧ handleFileSelect (JsFile.mk "big" "bin" (List.replicate (1024 * 1024 * 1024 + 1) 0))
        initHookState = (initHookState, []) :=
  ⟨by norm_num [JsFile.size], oversized_file_rejected _ _ (by norm_num [JsFile.size])⟩

/-- C10: the receiver invariant `receivedSize = total byte length of the
accumulated chunks` is preserved by every data-channel message (file-info
resets both, a binary frame advances both by the chunk's length,
file-complete touches neither) and holds after `resetConnection`. -/
theorem received_size_invariant (s : HookState) (now : ℚ) (msg : DCMessage)
    (h : recvInvariant s) :
    recvInvariant (handleDataChannelMessage now msg s)
    ∧ recvInvariant (resetConnection s) := by
  constructor
  · cases msg with
    | fileInfo name size ftype => simp [recvInvariant, handle_fileInfo]
    | fileComplete =>
        simpa [recvInvariant, handle_complete, saveReceivedFile] using h
    | chunk d =>
        rw [recvInvariant] at h
        simp [recvInvariant, handle_chunk, List.map_append, List.sum_append, h]
  · simp [recvInvariant, resetConnection]

/-- Witness for C10: the initial state satisfies the invariant and keeps
it across a chunk and a reset. -/
theorem received_size_invariant_w :
    recvInvariant initHookState
    ∧ (recvInvariant (handleDataChannelMessage 0 (DCMessage.chunk [1, 2]) initHookState)
       ∧ recvInvariant (resetConnection initHookState)) :=
  ⟨rfl, received_size_invariant initHookState 0 (DCMessage.chunk [1, 2]) rfl⟩

/-- C5 counterexample: after file-info, one chunk and file-complete the
receiver has surfaced the payload, yet the accumulator still holds the
chunk — the file-complete handling never clears `fileChunksRef`. -/
theorem accumulator_not_cleared_cex :
    (runReceiver (fun _ => 0)
        [DCMessage.fileInfo "f" 3 "t", DCMessage.chunk [1, 2, 3], DCMessage.fileComplete]
        initHookState).savedFile = some [1, 2, 3]
    ∧ (runReceiver (fun _ => 0)
        [DCMessage.fileInfo "f" 3 "t", DCMessage.chunk [1, 2, 3], DCMessage.fileComplete]
        initHookState).fileChunks = [[1, 2, 3]] := by
  constructor <;> rfl

/-- C5 (amended): on file-complete the receiver concatenates the
accumulated byte ranges in receipt order and surfaces the payload, but it
does not clear the accumulator; the accumulator is emptied only by the
next file-info frame or by resetConnection. -/
theorem fileComplete_saves_without_clearing (s : HookState) (now : ℚ)
    (name fileType : String) (size : Nat) :
    (handleDataChannelMessage now DCMessage.fileComplete s).savedFile
        = some s.fileChunks.flatten
    ∧ (handleDataChannelMessage now DCMessage.fileComplete s).fileChunks = s.fileChunks
    ∧ (handleDataChannelMessage now (DCMessage.fileInfo name size fileType) s).fileChunks = []
    ∧ (resetConnection s).fileChunks = [] :=
  ⟨rfl, rfl, rfl, rfl⟩

/-- C1: a source byte sequence of at most 1 GiB, split by the sender into
CHUNK_SIZE chunks and delivered in send order, reassembles on the
receiver to the identical byte sequence at file-complete, and the
receiver's recorded totalSize equals the input's length. -/
theorem round_trip (file : List Byte) (name fileType : String) (f : Nat → ℚ)
    (s0 : HookState) (hsize : file.length ≤ 1024 * 1024 * 1024) :
    (runReceiver f (senderFrames file name fileType) s0).savedFile = some file
    ∧ (runReceiver f (senderFrames file name fileType) s0).totalSize = file.length := by
  rw [runReceiver, senderFrames]
  simp only [runReceiverFrom, List.append_eq]
  rw [runReceiverFrom_append]
  simp only [runReceiverFrom]
  rw [handle_complete]
  obtain ⟨h1, h2, h3, h4, h5⟩ := run_chunks_fields f (0 + 1) (sendChunks file)
      (handleDataChannelMessage (f 0) (DCMessage.fileInfo name file.length fileType) s0)
  constructor
  · show (saveReceivedFile _).savedFile = some file
    rw [saveReceivedFile]
    simp only []
    rw [h1, handle_fileInfo]
    simp only [List.nil_append]
    rw [sendChunks_flatten]
  · show (saveReceivedFile _).totalSize = file.length
    rw [saveReceivedFile]
    simp only []
    rw [h3, handle_fileInfo]

/-- Witness for C1: a 3-byte file round-trips. -/
theorem round_trip_w :
    ([1, 2, 3] : List Byte).length ≤ 1024 * 1024 * 1024
    ∧ ((runReceiver (fun _ => 0) (senderFrames [1, 2, 3] "f" "t") initHookState).savedFile
          = some [1, 2, 3]
       ∧ (runReceiver (fun _ => 0) (senderFrames [1, 2, 3] "f" "t") initHookState).totalSize
          = ([1, 2, 3] : List Byte).length) :=
  ⟨by norm_num, round_trip [1, 2, 3] "f" "t" (fun _ => 0) initHookState (by norm_num)⟩

lemma sendChunks_nil : sendChunks ([] : List Byte) = [[]] := by
  rw [sendChunks, sendLoop]
  simp

/-- C3 counterexample: an empty file produces one (empty) binary frame,
not `ceil(0 / CHUNK_SIZE) = 0` frames — the sender always reads and sends
the first slice before checking the offset. -/
theorem chunk_count_zero_cex :
    (sendChunks ([] : List Byte)).length
      ≠ (([] : List Byte).length + CHUNK_SIZE - 1) / CHUNK_SIZE := by
  rw [sendChunks_nil]
  norm_num [CHUNK_SIZE]

/-- C3 (amended): for a nonempty file, every binary frame is exactly
CHUNK_SIZE bytes except the final frame which is at most CHUNK_SIZE, the
number of frames is ceil(n / CHUNK_SIZE), and the frame lengths sum to n.
(An empty file instead produces one empty frame.) -/
theorem chunk_framing (file : List Byte) (h : 0 < file.length) :
    (sendChunks file).length = (file.length + CHUNK_SIZE - 1) / CHUNK_SIZE
    ∧ ((sendChunks file).map List.length).sum = file.length
    ∧ (sendChunks file).dropLast.all (fun d => d.length == CHUNK_SIZE) = true
    ∧ ((sendChunks file).getLast?.getD []).length ≤ CHUNK_SIZE := by
  have hcs : 0 < CHUNK_SIZE := by norm_num [CHUNK_SIZE]
  refine ⟨?_, sendChunks_sum file, ?_, ?_⟩
  · rw [sendChunks_length]
    have h1 : 1 ≤ (file.length + CHUNK_SIZE - 1) / CHUNK_SIZE := by
      rw [Nat.le_div_iff_mul_le hcs]
      omega
    omega
  · rw [List.all_eq_true]
    intro d hd
    rw [beq_iff_eq]
    exact sendLoop_dropLast_length file 0 d hd
  · rcases hgl : (sendChunks file).getLast? with _ | c
    · simp
    · rw [Option.getD_some]
      exact sendLoop_getLast_length file 0 c hgl

/-- Witness for C3: the 3 MiB file of the spec scenario gives exactly 3
frames of 1 MiB. -/
theorem chunk_framing_w :
    0 < (List.replicate (3 * CHUNK_SIZE) (0 : Byte)).length
    ∧ ((sendChunks (List.replicate (3 * CHUNK_SIZE) (0 : Byte))).length
          = ((List.replicate (3 * CHUNK_SIZE) (0 : Byte)).length + CHUNK_SIZE - 1) / CHUNK_SIZE
       ∧ ((sendChunks (List.replicate (3 * CHUNK_SIZE) (0 : Byte))).map List.length).sum
          = (List.replicate (3 * CHUNK_SIZE) (0 : Byte)).length
       ∧ (sendChunks (List.replicate (3 * CHUNK_SIZE) (0 : Byte))).dropLast.all
            (fun d => d.length == CHUNK_SIZE) = true
       ∧ ((sendChunks (List.replicate (3 * CHUNK_SIZE) (0 : Byte))).getLast?.getD []).length
          ≤ CHUNK_SIZE)
    ∧ (sendChunks (List.replicate (3 * CHUNK_SIZE) (0 : Byte))).length = 3 := by
  have h : 0 < (List.replicate (3 * CHUNK_SIZE) (0 : Byte)).length := by
    rw [List.length_replicate]
    norm_num [CHUNK_SIZE]
  refine ⟨h, chunk_framing _ h, ?_⟩
  rw [(chunk_framing (List.replicate (3 * CHUNK_SIZE) 0) h).1, List.length_replicate]
  norm_num [CHUNK_SIZE]

lemma progressPercent_self (n : Nat) (hn : n ≠ 0) : progressPercent n n = some 100 := by
  rw [progressPercent, if_neg hn]
  congr 1
  rw [div_self (by exact_mod_cast hn)]
  norm_num

lemma progressAfter_spec (file : List Byte) (h : 0 < file.length) :
    (progressAfter file).Chain' optLe
    ∧ (progressAfter file).getLast? = some (some 100) := by
  have hn0 : file.length ≠ 0 := by omega
  constructor
  · rw [progressAfter, List.chain'_map]
    apply (sumsFrom_chain 0 _).imp
    intro a b hab
    rw [progressPercent, progressPercent, if_neg hn0, if_neg hn0]
    show (a : ℚ) / (file.length : ℚ) * 100 ≤ (b : ℚ) / (file.length : ℚ) * 100
    have hab2 : (a : ℚ) ≤ (b : ℚ) := by exact_mod_cast hab
    gcongr
  · rw [progressAfter, List.getLast?_map]
    rcases hsc : (sendChunks file).map List.length with _ | ⟨l, ls⟩
    · exact absurd (List.map_eq_nil_iff.mp hsc) (sendLoop_ne_nil file 0)
    · have hsum : (l :: ls).sum = file.length := by
        rw [← hsc, sendChunks_sum]
      rw [sumsFrom_getLast, Option.map_some', Nat.zero_add, hsum,
        progressPercent_self file.length hn0]

/-- C4 counterexample: for an empty file the progress computation divides
by a zero totalSize, so the last sender progress update is a non-finite
number (not 100) and the receiver's progress at file-complete is not 100
either. -/
theorem progress_empty_file_cex :
    (progressAfter ([] : List Byte)).getLast? = some none
    ∧ (runReceiver (fun _ => 0) (senderFrames [] "f" "t") initHookState).progress
        ≠ some 100 := by
  constructor
  · rw [progressAfter, sendChunks_nil]
    rfl
  · rw [runReceiver, senderFrames, sendChunks_nil]
    decide

/-- C4 (amended): for a transfer with positive totalSize, the progress
updates of one transfer are monotonically non-decreasing on both sender
and receiver, the last update before file-complete is exactly 100, and
the receiver's progress when file-complete is handled equals 100.  (For
an empty file the computation divides by zero and never reports 100.) -/
theorem progress_monotone_to_100 (file : List Byte) (name fileType : String)
    (f : Nat → ℚ) (s0 : HookState) (h : 0 < file.length) :
    (progressAfter file).Chain' optLe
    ∧ (progressAfter file).getLast? = some (some 100)
    ∧ ((runStates f 1 ((sendChunks file).map DCMessage.chunk)
          (handleDataChannelMessage (f 0)
            (DCMessage.fileInfo name file.length fileType) s0)).map
        HookState.progress).Chain' optLe
    ∧ ((runStates f 1 ((sendChunks file).map DCMessage.chunk)
          (handleDataChannelMessage (f 0)
            (DCMessage.fileInfo name file.length fileType) s0)).map
        HookState.progress).getLast? = some (some 100)
    ∧ (runReceiver f (senderFrames file name fileType) s0).progress = some 100 := by
  have hn0 : file.length ≠ 0 := by omega
  obtain ⟨hA, hB⟩ := progressAfter_spec file h
  have hrs : (runStates f 1 ((sendChunks file).map DCMessage.chunk)
        (handleDataChannelMessage (f 0)
          (DCMessage.fileInfo name file.length fileType) s0)).map HookState.progress
      = progressAfter file := by
    rw [runStates_chunks_progress, handle_fileInfo]
    rfl
  refine ⟨hA, hB, ?_, ?_, ?_⟩
  · rw [hrs]
    exact hA
  · rw [hrs]
    exact hB
  · rw [runReceiver, senderFrames]
    simp only [runReceiverFrom, List.append_eq]
    rw [runReceiverFrom_append]
    simp only [runReceiverFrom]
    rw [handle_complete]
    obtain ⟨h1, h2, h3, h4, h5⟩ := run_chunks_fields f (0 + 1) (sendChunks file)
        (handleDataChannelMessage (f 0) (DCMessage.fileInfo name file.length fileType) s0)
    show (saveReceivedFile _).progress = some 100
    rw [saveReceivedFile]
    simp only []
    have hne : sendChunks file ≠ [] := sendLoop_ne_nil file 0
    rw [h5, if_neg hne]
    show progressPercent (0 + ((sendChunks file).map List.length).sum) file.length = some 100
    rw [sendChunks_sum, Nat.zero_add, progressPercent_self file.length hn0]

/-- Witness for C4: a 2-byte transfer. -/
theorem progress_monotone_to_100_w :
    0 < ([1, 2] : List Byte).length
    ∧ ((progressAfter [1, 2]).Chain' optLe
       ∧ (progressAfter [1, 2]).getLast? = some (some 100)
       ∧ ((runStates (fun _ => 0) 1 ((sendChunks [1, 2]).map DCMessage.chunk)
             (handleDataChannelMessage 0
               (DCMessage.fileInfo "f" ([1, 2] : List Byte).length "t") initHookState)).map
           HookState.progress).Chain' optLe
       ∧ ((runStates (fun _ => 0) 1 ((sendChunks [1, 2]).map DCMessage.chunk)
             (handleDataChannelMessage 0
               (DCMessage.fileInfo "f" ([1, 2] : List Byte).length "t") initHookState)).map
           HookState.progress).getLast? = some (some 100)
       ∧ (runReceiver (fun _ => 0) (senderFrames [1, 2] "f" "t") initHookState).progress
          = some 100) :=
  ⟨by norm_num, progress_monotone_to_100 [1, 2] "f" "t" (fun _ => 0) initHookState (by norm_num)⟩

lemma etaUpdate_pos (moved total : Nat) (e : ℚ) (hm : 0 < moved) (he : 0 < e) :
    etaUpdate moved total e
      = Int.ceil (((total : ℚ) - (moved : ℚ)) / ((moved : ℚ) / e)) := by
  have hm2 : (0 : ℚ) < (moved : ℚ) := by exact_mod_cast hm
  have hbps : (0 : ℚ) < (moved : ℚ) / e := div_pos hm2 he
  simp only [etaUpdate]
  rw [if_pos hbps]

lemma etaUpdate_zero_moved (t : Nat) (e : ℚ) : etaUpdate 0 t e = 0 := by
  simp [etaUpdate]

lemma etaUpdate_zero_elapsed (m t : Nat) : etaUpdate m t 0 = 0 := by
  simp [etaUpdate]

/-- C9: after a chunk with at least one byte moved and a positive elapsed
time, the stored ETA equals `ceil(remainingBytes / (bytesMoved /
elapsedSeconds))` — on the receiver (a binary frame during a started
transfer) and on the sender (one `onload` step) alike; and whenever no
byte has moved or the elapsed time is zero (including the initial state),
the rendered ETA is "Calculating..." (no numeric value). -/
theorem eta_formula (s : HookState) (now : ℚ) (data file : List Byte)
    (offset m t : Nat) (e : ℚ)
    (hstart : 0 < s.startTime)
    (hmoved : 0 < s.receivedSize + data.length)
    (hoff : 0 < offset + data.length)
    (hel : s.startTime < now) :
    (handleDataChannelMessage now (.chunk data) s).estimatedTime
      = Int.ceil (((s.totalSize : ℚ) - ((s.receivedSize + data.length : Nat) : ℚ))
          / (((s.receivedSize + data.length : Nat) : ℚ) / ((now - s.startTime) / 1000)))
    ∧ ((senderOnLoad file data offset now s).2.1).estimatedTime
      = Int.ceil (((file.length : ℚ) - ((offset + data.length : Nat) : ℚ))
          / (((offset + data.length : Nat) : ℚ) / ((now - s.startTime) / 1000)))
    ∧ etaDisplay (etaUpdate 0 t e) = none
    ∧ etaDisplay (etaUpdate m t 0) = none
    ∧ etaDisplay initHookState.estimatedTime = none := by
  have he : (0 : ℚ) < (now - s.startTime) / 1000 :=
    div_pos (sub_pos.mpr hel) (by norm_num)
  refine ⟨?_, ?_, ?_, ?_, rfl⟩
  · rw [handle_chunk]
    simp only []
    rw [if_pos hstart, etaUpdate_pos _ _ _ hmoved he]
  · rw [senderOnLoad]
    split
    · exact etaUpdate_pos _ _ _ hoff he
    · exact etaUpdate_pos _ _ _ hoff he
  · rw [etaUpdate_zero_moved]
    rfl
  · rw [etaUpdate_zero_elapsed]
    rfl

/-- Witness for C9: one 1-byte chunk arriving one second after the
file-info frame started the clock. -/
theorem eta_formula_w :
    (0 < (handleDataChannelMessage 1 (DCMessage.fileInfo "f" 2 "t") initHookState).startTime
     ∧ 0 < (handleDataChannelMessage 1 (DCMessage.fileInfo "f" 2 "t")
          initHookState).receivedSize + ([7] : List Byte).length
     ∧ 0 < 0 + ([7] : List Byte).length
     ∧ (handleDataChannelMessage 1 (DCMessage.fileInfo "f" 2 "t") initHookState).startTime
        < 1001)
    ∧ ((handleDataChannelMessage 1001 (.chunk [7])
          (handleDataChannelMessage 1 (DCMessage.fileInfo "f" 2 "t") initHookState)).estimatedTime
        = Int.ceil
            ((((handleDataChannelMessage 1 (DCMessage.fileInfo "f" 2 "t")
                  initHookState).totalSize : ℚ)
                - (((handleDataChannelMessage 1 (DCMessage.fileInfo "f" 2 "t")
                      initHookState).receivedSize + ([7] : List Byte).length : Nat) : ℚ))
              / ((((handleDataChannelMessage 1 (DCMessage.fileInfo "f" 2 "t")
                      initHookState).receivedSize + ([7] : List Byte).length : Nat) : ℚ)
                  / ((1001 - (handleDataChannelMessage 1 (DCMessage.fileInfo "f" 2 "t")
                      initHookState).startTime) / 1000)))
       ∧ ((senderOnLoad [7, 7] [7] 0 1001
            (handleDataChannelMessage 1 (DCMessage.fileInfo "f" 2 "t")
              initHookState)).2.1).estimatedTime
        = Int.ceil (((([7, 7] : List Byte).length : ℚ)
                - ((0 + ([7] : List Byte).length : Nat) : ℚ))
              / (((0 + ([7] : List Byte).length : Nat) : ℚ)
                  / ((1001 - (handleDataChannelMessage 1 (DCMessage.fileInfo "f" 2 "t")
                      initHookState).startTime) / 1000)))
       ∧ etaDisplay (etaUpdate 0 9 3) = none
       ∧ etaDisplay (etaUpdate 5 9 0) = none
       ∧ etaDisplay initHookState.estimatedTime = none) :=
  ⟨⟨by decide, by decide, by decide, by decide⟩,
    eta_formula (handleDataChannelMessage 1 (DCMessage.fileInfo "f" 2 "t") initHookState)
      1001 [7] [7, 7] 0 5 9 3 (by decide) (by decide) (by decide) (by decide)⟩

end FileBeam
